import Mathlib

set_option maxHeartbeats 1000000
set_option maxRecDepth 100000

/-!
Verification of the webd protocol core (HTTP request parsing, WebSocket frame
codec, handshake engine, connection session) against its specification.

The Rust source in src/lib.rs and src/err.rs is shallowly embedded here:
bytes are Nat values below 256, byte slices are List Nat, machine-integer
casts are explicit truncations with % 256 or % 2^32, fallible paths return
explicit result types, and the Rust panics reachable in the source (a
slice-range violation and the todo macros) are modelled by explicit panic
constructors so that they stay observable.
-/

/-- Error kinds from src/err.rs: Io wraps a transport failure message, Input
wraps a malformed-protocol-data message. -/
inductive Error where
  | Io (msg : String)
  | Input (msg : String)
deriving DecidableEq

/-- Model of the From conversion in src/err.rs lines 15-19: a FromUtf8Error is
converted into the Io kind (not the Input kind). -/
def fromUtf8Error (msg : String) : Error := Error.Io msg

/-- HTTP verb enumeration from src/lib.rs; the closed set currently holds only GET. -/
inductive Verb where
  | Get
deriving DecidableEq

/-- Verb parsing: only the exact token GET is recognised. -/
def Verb.parse (s : String) : Option Verb :=
  match s with
  | "GET" => Option.some Verb.Get
  | _ => Option.none

/-- Lookup in the model of std HashMap String String: the value stored for a
key, found by exact (case-sensitive) string equality. -/
def hmGet (m : List (String × String)) (k : String) : Option String :=
  match m.find? (fun p => p.1 == k) with
  | Option.some p => Option.some p.2
  | Option.none => Option.none

/-- Model of HashMap insert as used by Req parsing: inserting a key that is
already present overwrites the stored value. -/
def hmInsert : List (String × String) → String → String → List (String × String)
  | [], k, v => [(k, v)]
  | p :: rest, k, v => if p.1 == k then (k, v) :: rest else p :: hmInsert rest k v

/-- Whitespace trim on a character list, the model of str trim: drop
whitespace from both ends. -/
def trimChars (cs : List Char) : List Char :=
  ((cs.dropWhile Char.isWhitespace).reverse.dropWhile Char.isWhitespace).reverse

/-- Model of str trim on strings. -/
def strTrim (s : String) : String := String.mk (trimChars s.toList)

/-- Split a character list at every occurrence of the separator, the model of
the str split iterator: n separators produce n+1 segments, so the empty string
yields one empty segment. -/
def splitOnChar (sep : Char) : List Char → List (List Char)
  | [] => [[]]
  | c :: rest =>
    let r := splitOnChar sep rest
    if c == sep then [] :: r
    else
      match r with
      | [] => [[c]]
      | seg :: segs => (c :: seg) :: segs

/-- Model of str split with a one-character separator, as a list of strings. -/
def strSplit (sep : Char) (s : String) : List String :=
  (splitOnChar sep s.toList).map String.mk

/-- Parsed HTTP request from src/lib.rs: version, verb, path and header map. -/
structure Req where
  version : String
  verb : Verb
  path : String
  headers : List (String × String)
deriving DecidableEq

/-- One read_line step on the buffered stream, modelled as a list of lines
with the line terminator already stripped; at end of stream read_line
produces the empty string. -/
def readLine (ls : List String) : String × List String :=
  match ls with
  | [] => ("", [])
  | l :: rest => (l, rest)

/-- The header loop of Req parse (src/lib.rs lines 48-67): read lines until a
line that trims to empty, split each line at colons, trim the first segment as
the name and the second as the value, skip lines without a colon, and insert
into the map. -/
def parseHeaders : List String → List (String × String) → List (String × String)
  | [], m => m
  | l :: rest, m =>
    let hdr := strTrim l
    if hdr = "" then m
    else
      match strSplit ':' hdr with
      | [] => parseHeaders rest m
      | [_] => parseHeaders rest m
      | name :: value :: _ => parseHeaders rest (hmInsert m (strTrim name) (strTrim value))

/-- Req parse (src/lib.rs lines 21-75): read the request line, trim it, split
on single spaces into verb, path and version (extra tokens ignored), then read
the header lines. -/
def Req.parse (ls : List String) : Except Error Req :=
  let first := readLine ls
  match strSplit ' ' (strTrim first.1) with
  | [] => Except.error (Error.Input "no verb")
  | verbTok :: rest =>
    match Verb.parse verbTok with
    | Option.none => Except.error (Error.Input ("unknown verb: " ++ verbTok))
    | Option.some verb =>
      match rest with
      | [] => Except.error (Error.Input "no path")
      | path :: rest2 =>
        match rest2 with
        | [] => Except.error (Error.Input "no version")
        | version :: _ =>
          Except.ok { version := version, verb := verb, path := path,
                      headers := parseHeaders first.2 [] }

/-- WebSocket opcodes from src/lib.rs: the closed six-element set. -/
inductive OpCode where
  | Continuation
  | Text
  | Binary
  | Close
  | Ping
  | Pong
deriving DecidableEq

/-- OpCode parse (src/lib.rs lines 224-235): keep the low nibble and accept
exactly the six known values; anything else is rejected. -/
def OpCode.parse (val : Nat) : Option OpCode :=
  match val &&& 0xf with
  | 0x0 => Option.some OpCode.Continuation
  | 0x1 => Option.some OpCode.Text
  | 0x2 => Option.some OpCode.Binary
  | 0x8 => Option.some OpCode.Close
  | 0x9 => Option.some OpCode.Ping
  | 0xA => Option.some OpCode.Pong
  | _ => Option.none

/-- OpCode as_byte (src/lib.rs lines 237-246). -/
def OpCode.as_byte : OpCode → Nat
  | OpCode.Continuation => 0x0
  | OpCode.Text => 0x1
  | OpCode.Binary => 0x2
  | OpCode.Close => 0x8
  | OpCode.Ping => 0x9
  | OpCode.Pong => 0xA

/-- FrameHeader from src/lib.rs: fin flag, opcode, byte length of the header
itself, payload byte length, optional 4-byte masking key. -/
structure FrameHeader where
  fin : Bool
  opcode : OpCode
  header_len : Nat
  payload_len : Nat
  masking_key : Option (Nat × Nat × Nat × Nat)
deriving DecidableEq

/-- Total frame length: header bytes plus payload bytes (src/lib.rs 258-260). -/
def FrameHeader.frame_len (h : FrameHeader) : Nat :=
  h.header_len + h.payload_len

/-- Result of FrameHeader parse. The Rust function returns an Option, so the
some and none constructors mirror it exactly; the panic constructor records
the one unguarded slice access in the function, which aborts the program
instead of returning. -/
inductive ParseResult where
  | some (h : FrameHeader)
  | none
  | panic (msg : String)
deriving DecidableEq

/-- The masking-key step at the end of FrameHeader parse (src/lib.rs lines
295-309): when the mask bit is set the code slices buf at used..used+4 with no
length guard, which panics whenever fewer than used+4 bytes are available. -/
def FrameHeader.parseMask (buf : List Nat) (fin : Bool) (opcode : OpCode)
    (mask : Bool) (payload_len used : Nat) : ParseResult :=
  if mask then
    if buf.length < used + 4 then ParseResult.panic "range end index out of range"
    else ParseResult.some
      { fin := fin, opcode := opcode, header_len := used + 4,
        payload_len := payload_len,
        masking_key := Option.some
          (buf.getD used 0, buf.getD (used + 1) 0, buf.getD (used + 2) 0, buf.getD (used + 3) 0) }
  else
    ParseResult.some
      { fin := fin, opcode := opcode, header_len := used,
        payload_len := payload_len, masking_key := Option.none }

/-- FrameHeader parse (src/lib.rs lines 262-316): needs at least 2 bytes, reads
fin and the opcode nibble from byte 0, mask bit and base length from byte 1,
then the 2-byte or 8-byte big-endian extended length, then the masking key.
The guarded index reads of the source appear here as list destructuring; the
match arms that the length guards make unreachable return the failure value. -/
def FrameHeader.parse (buf : List Nat) : ParseResult :=
  let n := buf.length
  if n > 1 then
    match buf with
    | b0 :: b1 :: rest =>
      let fin := (b0 &&& 0x80) = 0x80
      match OpCode.parse (b0 &&& 0x0f) with
      | Option.none => ParseResult.none
      | Option.some opcode =>
        let mask := (b1 &&& 0x80) = 0x80
        let pl := b1 &&& 0x7f
        if pl = 126 then
          if n < 4 then ParseResult.none
          else
            match rest with
            | b2 :: b3 :: _ =>
              FrameHeader.parseMask buf fin opcode mask ((b2 <<< 8) ||| b3) 4
            | _ => ParseResult.none
        else if pl = 127 then
          if n < 10 then ParseResult.none
          else
            match rest with
            | b2 :: b3 :: b4 :: b5 :: b6 :: b7 :: b8 :: b9 :: _ =>
              FrameHeader.parseMask buf fin opcode mask
                ((b2 <<< (7 * 8)) ||| (b3 <<< (6 * 8)) |||
                 (b4 <<< (5 * 8)) ||| (b5 <<< (4 * 8)) |||
                 (b6 <<< (3 * 8)) ||| (b7 <<< (2 * 8)) |||
                 (b8 <<< 8) ||| b9) 10
            | _ => ParseResult.none
        else FrameHeader.parseMask buf fin opcode mask pl 2
    | _ => ParseResult.none
  else ParseResult.none

/-- Byte i mod 4 of a 4-byte masking key. -/
def keyByte (key : Nat × Nat × Nat × Nat) (i : Nat) : Nat :=
  match i % 4 with
  | 0 => key.1
  | 1 => key.2.1
  | 2 => key.2.2.1
  | _ => key.2.2.2

/-- The xor loop inside unmask, carrying the running byte index. -/
def unmaskGo (key : Nat × Nat × Nat × Nat) (i : Nat) : List Nat → List Nat
  | [] => []
  | b :: rest => (b ^^^ keyByte key i) :: unmaskGo key (i + 1) rest

/-- FrameHeader unmask (src/lib.rs lines 318-329): xor byte i of the buffer
with key byte i mod 4 when a masking key is present, otherwise return the
buffer unchanged. -/
def FrameHeader.unmask (h : FrameHeader) (buf : List Nat) : List Nat :=
  match h.masking_key with
  | Option.some key => unmaskGo key 0 buf
  | Option.none => buf

/-- The header bytes assembled by FrameHeader write (src/lib.rs lines 331-375):
fin bit or-ed with the opcode, mask bit or-ed with the length field, the
extended big-endian length when the payload needs it, then the masking key
bytes. Casts to u8 are the explicit % 256 truncations. -/
def FrameHeader.writeBytes (h : FrameHeader) : List Nat :=
  let b0 := (if h.fin then 0x80 else 0) ||| h.opcode.as_byte
  let m := if h.masking_key.isSome then 0x80 else 0
  let lenBytes :=
    if h.payload_len > 65535 then
      [m ||| 127,
       (h.payload_len >>> (7 * 8)) % 256, (h.payload_len >>> (6 * 8)) % 256,
       (h.payload_len >>> (5 * 8)) % 256, (h.payload_len >>> (4 * 8)) % 256,
       (h.payload_len >>> (3 * 8)) % 256, (h.payload_len >>> (2 * 8)) % 256,
       (h.payload_len >>> (1 * 8)) % 256, h.payload_len % 256]
    else if h.payload_len > 125 then
      [m ||| 126, (h.payload_len >>> (1 * 8)) % 256, h.payload_len % 256]
    else
      [m ||| (h.payload_len % 256)]
  let keyBytes :=
    match h.masking_key with
    | Option.none => []
    | Option.some k => [k.1, k.2.1, k.2.2.1, k.2.2.2]
  b0 :: (lenBytes ++ keyBytes)

/-- FrameHeader final_text (src/lib.rs lines 377-403): a final Text header for
the given payload length and optional key. The fixed-byte count it uses for
header_len is the constant 1 from line 378. -/
def FrameHeader.final_text (payload_len : Nat)
    (masking_key : Option (Nat × Nat × Nat × Nat)) : FrameHeader :=
  let header_fixed := 1
  let payload_extra :=
    if payload_len > 65535 then 8
    else if payload_len > 125 then 2
    else 0
  let mask_len :=
    match masking_key with
    | Option.none => 0
    | Option.some _ => 4
  { fin := true, opcode := OpCode.Text,
    header_len := header_fixed + payload_extra + mask_len,
    payload_len := payload_len, masking_key := masking_key }

/-- UTF-8 encoding of one character, as in the Rust str as_bytes view. -/
def utf8EncodeChar (c : Char) : List Nat :=
  let n := c.toNat
  if n < 0x80 then [n]
  else if n < 0x800 then
    [0xC0 ||| (n >>> 6), 0x80 ||| (n &&& 0x3F)]
  else if n < 0x10000 then
    [0xE0 ||| (n >>> 12), 0x80 ||| ((n >>> 6) &&& 0x3F), 0x80 ||| (n &&& 0x3F)]
  else
    [0xF0 ||| (n >>> 18), 0x80 ||| ((n >>> 12) &&& 0x3F),
     0x80 ||| ((n >>> 6) &&& 0x3F), 0x80 ||| (n &&& 0x3F)]

/-- UTF-8 byte encoding of a string. -/
def utf8Encode (s : String) : List Nat :=
  (s.toList.map utf8EncodeChar).flatten

/-- The recursive step of UTF-8 validation and decoding, the check performed by
String from_utf8: well-formed lead and continuation bytes, shortest-form
encodings only, no surrogates, nothing above 0x10FFFF. Fuel is an upper bound
on the number of decoded characters, so that the recursion is structural. -/
def utf8DecodeGo : Nat → List Nat → Option (List Char)
  | _, [] => Option.some []
  | 0, _ :: _ => Option.none
  | Nat.succ f, b :: rest =>
    if b < 0x80 then
      (utf8DecodeGo f rest).map (fun cs => Char.ofNat b :: cs)
    else if b < 0xC2 then Option.none
    else if b < 0xE0 then
      match rest with
      | c1 :: rest1 =>
        if c1 &&& 0xC0 = 0x80 then
          (utf8DecodeGo f rest1).map
            (fun cs => Char.ofNat (((b &&& 0x1F) <<< 6) ||| (c1 &&& 0x3F)) :: cs)
        else Option.none
      | _ => Option.none
    else if b < 0xF0 then
      match rest with
      | c1 :: c2 :: rest2 =>
        if c1 &&& 0xC0 = 0x80 ∧ c2 &&& 0xC0 = 0x80
            ∧ (b ≠ 0xE0 ∨ c1 ≥ 0xA0) ∧ (b ≠ 0xED ∨ c1 < 0xA0) then
          (utf8DecodeGo f rest2).map
            (fun cs => Char.ofNat
              ((((b &&& 0x0F) <<< 12) ||| ((c1 &&& 0x3F) <<< 6)) ||| (c2 &&& 0x3F)) :: cs)
        else Option.none
      | _ => Option.none
    else if b < 0xF5 then
      match rest with
      | c1 :: c2 :: c3 :: rest3 =>
        if c1 &&& 0xC0 = 0x80 ∧ c2 &&& 0xC0 = 0x80 ∧ c3 &&& 0xC0 = 0x80
            ∧ (b ≠ 0xF0 ∨ c1 ≥ 0x90) ∧ (b ≠ 0xF4 ∨ c1 < 0x90) then
          (utf8DecodeGo f rest3).map
            (fun cs => Char.ofNat
              (((((b &&& 0x07) <<< 18) ||| ((c1 &&& 0x3F) <<< 12))
                ||| ((c2 &&& 0x3F) <<< 6)) ||| (c3 &&& 0x3F)) :: cs)
        else Option.none
      | _ => Option.none
    else Option.none

/-- Model of String from_utf8: decode a byte sequence, or reject it when it is
not valid UTF-8. -/
def utf8Decode (bs : List Nat) : Option (List Char) :=
  utf8DecodeGo bs.length bs

/-- Decoded application data of one message (src/lib.rs lines 405-409). -/
inductive Payload where
  | Str (s : List Char)
  | Bin (b : List Nat)
deriving DecidableEq

/-- The WebSocket session state from src/lib.rs lines 411-415: the upgrade
request, the buffered client stream (inbuf holds the bytes the buffered reader
currently exposes, out holds every byte written to the stream so far), and the
open flag. The Rust field named open keeps that role under the name openFlag,
open being reserved in Lean. -/
structure WebSocket where
  req : Req
  inbuf : List Nat
  out : List Nat
  openFlag : Bool
deriving DecidableEq

/-- WebSocket new (src/lib.rs lines 418-424): a fresh session starts open. -/
def WebSocket.new (req : Req) (inbuf : List Nat) : WebSocket :=
  { req := req, inbuf := inbuf, out := [], openFlag := true }

/-- Model of BufReader consume: drop already-processed bytes from the front of
the buffer. -/
def WebSocket.consume (s : WebSocket) (amt : Nat) : WebSocket :=
  { s with inbuf := s.inbuf.drop amt }

/-- Result of a recv call: the Ok payload-option with the updated session, an
error with the session as it then stands, or a panic (the todo macros in the
source, and the unguarded slice in the header parser). -/
inductive RecvResult where
  | ok (p : Option Payload) (s : WebSocket)
  | err (e : Error) (s : WebSocket)
  | panic (msg : String)
deriving DecidableEq

/-- WebSocket recv (src/lib.rs lines 426-471). A closed session returns Ok
None at once. Otherwise the buffered bytes are peeked, the frame header is
parsed (None from the parser yields Ok None), a buffer shorter than the whole
frame yields Ok None, and the opcode is dispatched: Text decodes the unmasked
bytes after the header (the source passes everything to the end of the buffer)
and an invalid UTF-8 payload returns early through the From conversion without
consuming; Binary returns those bytes; Close clears the open flag; a non-final
frame and the Continuation, Ping and Pong opcodes hit todo macros and panic.
On the non-early-return paths the frame length is consumed before returning. -/
def WebSocket.recv (s : WebSocket) : RecvResult :=
  if !s.openFlag then RecvResult.ok Option.none s
  else
    let buf := s.inbuf
    match FrameHeader.parse buf with
    | ParseResult.panic m => RecvResult.panic m
    | ParseResult.none => RecvResult.ok Option.none s
    | ParseResult.some hdr =>
      if buf.length < hdr.frame_len then RecvResult.ok Option.none s
      else if !hdr.fin then RecvResult.panic "not yet implemented: continuations"
      else
        match hdr.opcode with
        | OpCode.Continuation => RecvResult.panic "not yet implemented: got a continuation"
        | OpCode.Text =>
          match utf8Decode (hdr.unmask (buf.drop hdr.header_len)) with
          | Option.none => RecvResult.err (fromUtf8Error "invalid utf-8 sequence") s
          | Option.some cs =>
            RecvResult.ok (Option.some (Payload.Str cs)) (s.consume hdr.frame_len)
        | OpCode.Binary =>
          RecvResult.ok (Option.some (Payload.Bin (hdr.unmask (buf.drop hdr.header_len))))
            (s.consume hdr.frame_len)
        | OpCode.Close =>
          RecvResult.ok Option.none (WebSocket.consume { s with openFlag := false } hdr.frame_len)
        | OpCode.Ping => RecvResult.panic "not yet implemented: send pong"
        | OpCode.Pong => RecvResult.panic "not yet implemented: nothing?"

/-- Result of a send_str call: the Ok byte count with the updated session, or
an error with the session as it then stands. -/
inductive SendResult where
  | ok (n : Nat) (s : WebSocket)
  | err (e : Error) (s : WebSocket)
deriving DecidableEq

/-- WebSocket send_str (src/lib.rs lines 473-481): build a final unmasked Text
header for the message bytes, write the header bytes then the payload bytes to
the stream, and return the total count. The function does not consult the open
flag. -/
def WebSocket.send_str (s : WebSocket) (msg : String) : SendResult :=
  let payload := utf8Encode msg
  let hdr := FrameHeader.final_text payload.length Option.none
  let hb := hdr.writeBytes
  SendResult.ok (hb.length + payload.length) { s with out := (s.out ++ hb) ++ payload }

/-- Truncation to a 32-bit word. -/
def w32 (n : Nat) : Nat := n % 4294967296

/-- Left rotation of a 32-bit word by k bits. -/
def rotl (k n : Nat) : Nat := w32 ((n <<< k) ||| (n >>> (32 - k)))

/-- Big-endian bytes to 32-bit words, four bytes per word. -/
def bytesToWords : List Nat → List Nat
  | a :: b :: c :: d :: rest =>
    (((((a <<< 8) ||| b) <<< 8) ||| c) <<< 8 ||| d) :: bytesToWords rest
  | _ => []

/-- Modelled from the spec: the message-schedule extension of the external
SHA-1 collaborator, appending fuel further words, each the 1-bit left rotation
of the xor of the words 3, 8, 14 and 16 places back. -/
def sha1ExtendGo : Nat → List Nat → List Nat
  | 0, ws => ws
  | Nat.succ f, ws =>
    let n := ws.length
    let wNew := rotl 1
      ((ws.getD (n - 3) 0) ^^^ (ws.getD (n - 8) 0) ^^^ (ws.getD (n - 14) 0) ^^^ (ws.getD (n - 16) 0))
    sha1ExtendGo f (ws ++ [wNew])

/-- The SHA-1 round function for round i. -/
def sha1F (i b c d : Nat) : Nat :=
  if i < 20 then (b &&& c) ||| ((0xFFFFFFFF ^^^ b) &&& d)
  else if i < 40 then b ^^^ c ^^^ d
  else if i < 60 then (b &&& c) ||| (b &&& d) ||| (c &&& d)
  else b ^^^ c ^^^ d

/-- The SHA-1 round constant for round i. -/
def sha1K (i : Nat) : Nat :=
  if i < 20 then 0x5A827999
  else if i < 40 then 0x6ED9EBA1
  else if i < 60 then 0x8F1BBCDC
  else 0xCA62C1D6

/-- Modelled from the spec: the 80 compression rounds of the external SHA-1
collaborator over one block's schedule. -/
def sha1Rounds : List Nat → Nat → Nat × Nat × Nat × Nat × Nat → Nat × Nat × Nat × Nat × Nat
  | [], _, st => st
  | w :: ws, i, (a, b, c, d, e) =>
    let temp := w32 (rotl 5 a + sha1F i b c d + e + sha1K i + w)
    sha1Rounds ws (i + 1) (temp, a, rotl 30 b, c, d)

/-- Modelled from the spec: one 64-byte block step of the external SHA-1
collaborator. -/
def sha1Block (h : Nat × Nat × Nat × Nat × Nat) (block : List Nat) : Nat × Nat × Nat × Nat × Nat :=
  let ws := sha1ExtendGo 64 (bytesToWords block)
  match h, sha1Rounds ws 0 h with
  | (h0, h1, h2, h3, h4), (a, b, c, d, e) =>
    (w32 (h0 + a), w32 (h1 + b), w32 (h2 + c), w32 (h3 + d), w32 (h4 + e))

/-- Folding the block step over the padded message, 64 bytes at a time; fuel
bounds the number of blocks so the recursion is structural. -/
def sha1Chunks : Nat → Nat × Nat × Nat × Nat × Nat → List Nat → Nat × Nat × Nat × Nat × Nat
  | 0, h, _ => h
  | _, h, [] => h
  | Nat.succ f, h, bytes => sha1Chunks f (sha1Block h (bytes.take 64)) (bytes.drop 64)

/-- Modelled from the spec: SHA-1 padding, one 0x80 byte, zeros to 56 mod 64,
then the 64-bit big-endian bit length. -/
def sha1Pad (msg : List Nat) : List Nat :=
  let bitLen := msg.length * 8
  let padZeros := (119 - msg.length % 64) % 64
  msg ++ [0x80] ++ List.replicate padZeros 0 ++
    [(bitLen >>> 56) % 256, (bitLen >>> 48) % 256, (bitLen >>> 40) % 256,
     (bitLen >>> 32) % 256, (bitLen >>> 24) % 256, (bitLen >>> 16) % 256,
     (bitLen >>> 8) % 256, bitLen % 256]

/-- A 32-bit word as four big-endian bytes. -/
def wordToBytes (w : Nat) : List Nat :=
  [(w >>> 24) % 256, (w >>> 16) % 256, (w >>> 8) % 256, w % 256]

/-- Modelled from the spec: the external SHA-1 digest collaborator required by
the handshake engine, a correct 20-byte SHA-1 digest of a byte sequence
(section 6 of the spec treats it as an external hashing primitive, not
reimplemented by the core under src). -/
def sha1 (msg : List Nat) : List Nat :=
  let padded := sha1Pad msg
  match sha1Chunks padded.length (0x67452301, 0xEFCDAB89, 0x98BADCFE, 0x10325476, 0xC3D2E1F0) padded with
  | (h0, h1, h2, h3, h4) =>
    wordToBytes h0 ++ wordToBytes h1 ++ wordToBytes h2 ++ wordToBytes h3 ++ wordToBytes h4

/-- The standard base64 alphabet. -/
def b64Table : List Char :=
  "ABCDEFGHIJKLMNOPQRSTUVWXYZabcdefghijklmnopqrstuvwxyz0123456789+/".toList

/-- Character of the standard base64 alphabet at index n. -/
def b64Char (n : Nat) : Char := b64Table.getD n 'A'

/-- Modelled from the spec: the external standard base64 encoder collaborator,
three bytes to four characters with = padding. -/
def b64EncodeGo : List Nat → List Char
  | [] => []
  | [a] => [b64Char (a >>> 2), b64Char ((a &&& 3) <<< 4), '=', '=']
  | [a, b] =>
    [b64Char (a >>> 2), b64Char (((a &&& 3) <<< 4) ||| (b >>> 4)),
     b64Char ((b &&& 15) <<< 2), '=']
  | a :: b :: c :: rest =>
    b64Char (a >>> 2) :: b64Char (((a &&& 3) <<< 4) ||| (b >>> 4)) ::
    b64Char (((b &&& 15) <<< 2) ||| (c >>> 6)) :: b64Char (c &&& 63) :: b64EncodeGo rest

/-- Base64 encoding of a byte sequence as a string. -/
def b64Encode (bs : List Nat) : String := String.mk (b64EncodeGo bs)

/-- The response lines written by write_ws_headers (src/lib.rs lines 534-543). -/
def write_ws_headers (accept : String) : List String :=
  ["HTTP/1.0 101 Switching Protocols\n",
   "Server: webd 0.1\n",
   "Connection: upgrade\n",
   "Upgrade: websocket\n",
   "Sec-WebSocket-Accept: " ++ accept ++ "\n",
   "\n"]

/-- Outcome of ws_upgrade (src/lib.rs lines 484-488): an upgraded session
together with the accept token it computed and the response lines it wrote, a
fallback to plain HTTP, or an error. -/
inductive WsUpgrade where
  | Success (s : WebSocket) (accept : String) (resp : List String)
  | Failure (r : Req)
  | Error (e : Error)
deriving DecidableEq

/-- ws_upgrade (src/lib.rs lines 496-532): the Connection header must be
exactly Upgrade and the Upgrade header exactly websocket, else fall back; a
missing Sec-WebSocket-Key is an Input error; otherwise the magic string is
appended to the key, the SHA-1 digest is base64-encoded as the accept token,
the switching-protocols response is written and the open session returned. -/
def ws_upgrade (req : Req) : WsUpgrade :=
  match hmGet req.headers "Connection" with
  | Option.some "Upgrade" =>
    match hmGet req.headers "Upgrade" with
    | Option.some "websocket" =>
      match hmGet req.headers "Sec-WebSocket-Key" with
      | Option.some key =>
        let accept :=
          b64Encode (sha1 (utf8Encode (key ++ "258EAFA5-E914-47DA-95CA-C5AB0DC85B11")))
        WsUpgrade.Success (WebSocket.new req []) accept (write_ws_headers accept)
      | Option.none => WsUpgrade.Error (Error.Input "missing Sec-WebSocket-Key")
    | Option.some _ => WsUpgrade.Failure req
    | Option.none => WsUpgrade.Failure req
  | Option.some _ => WsUpgrade.Failure req
  | Option.none => WsUpgrade.Failure req



/-- The four observable fields of a successful frame-header parse, in source
order: fin, opcode, payload length and masking key (header_len is the only
field derived rather than round-tripped). -/
def parsedFields : ParseResult → Option (Bool × OpCode × Nat × Option (Nat × Nat × Nat × Nat))
  | ParseResult.some h => Option.some (h.fin, h.opcode, h.payload_len, h.masking_key)
  | _ => Option.none

/-- A concrete upgraded request used as a fixture in the session theorems. -/
def sampleReq : Req :=
  { version := "HTTP/1.1", verb := Verb.Get, path := "/", headers := [] }

/-! ## Helper lemmas -/

/-- Looking up the key just inserted finds the new value. -/
theorem hmGet_hmInsert_self (m : List (String × String)) (k v : String) :
    hmGet (hmInsert m k v) k = Option.some v := by
  induction m with
  | nil => simp [hmGet, hmInsert, List.find?]
  | cons p rest ih =>
    by_cases h : p.1 == k
    · simp [hmGet, hmInsert, h, List.find?]
    · simp only [hmInsert, h, if_false]
      simpa [hmGet, List.find?, h] using ih

/-- Inserting one key leaves lookups of any other key unchanged. -/
theorem hmGet_hmInsert_ne (m : List (String × String)) (k k2 v : String)
    (hne : k2 ≠ k) : hmGet (hmInsert m k v) k2 = hmGet m k2 := by
  have hkk2 : (k == k2) = false := by
    simp only [beq_eq_false_iff_ne, ne_eq]
    exact fun h => hne h.symm
  induction m with
  | nil => simp [hmGet, hmInsert, List.find?, hkk2]
  | cons p rest ih =>
    by_cases h : p.1 == k
    · have hp2 : (p.1 == k2) = false := by
        simp only [beq_eq_false_iff_ne, ne_eq]
        intro hcontr
        exact hne (hcontr ▸ eq_of_beq h)
      simp [hmGet, hmInsert, h, List.find?, hkk2, hp2]
    · by_cases h2 : p.1 == k2
      · simp [hmGet, hmInsert, h, List.find?, h2]
      · simp only [hmInsert, h, if_false]
        simpa [hmGet, List.find?, h, h2] using ih

/-- Unmasking is an involution at every starting index. -/
theorem unmaskGo_unmaskGo (key : Nat × Nat × Nat × Nat) (i : Nat) (bs : List Nat) :
    unmaskGo key i (unmaskGo key i bs) = bs := by
  induction bs generalizing i with
  | nil => rfl
  | cons b rest ih => simp [unmaskGo, Nat.xor_cancel_right, ih]

/-- Header bytes written for a masked header with a direct (7-bit) length. -/
theorem writeBytes_mask_small (fin : Bool) (op : OpCode) (hl len k1 k2 k3 k4 : Nat)
    (h : len ≤ 125) :
    FrameHeader.writeBytes ⟨fin, op, hl, len, Option.some (k1, k2, k3, k4)⟩ =
      [(if fin then 128 else 0) ||| op.as_byte, 128 ||| (len % 256), k1, k2, k3, k4] := by
  have h1 : ¬ (len > 65535) := by omega
  have h2 : ¬ (len > 125) := by omega
  simp [FrameHeader.writeBytes, h1, h2]

/-- Header bytes written for a masked header with a 2-byte extended length. -/
theorem writeBytes_mask_mid (fin : Bool) (op : OpCode) (hl len k1 k2 k3 k4 : Nat)
    (hlo : 125 < len) (hhi : len ≤ 65535) :
    FrameHeader.writeBytes ⟨fin, op, hl, len, Option.some (k1, k2, k3, k4)⟩ =
      [(if fin then 128 else 0) ||| op.as_byte, 128 ||| 126,
       (len >>> 8) % 256, len % 256, k1, k2, k3, k4] := by
  have h1 : ¬ (len > 65535) := by omega
  simp [FrameHeader.writeBytes, h1, hlo]

/-- Header bytes written for a masked header with an 8-byte extended length. -/
theorem writeBytes_mask_large (fin : Bool) (op : OpCode) (hl len k1 k2 k3 k4 : Nat)
    (hlo : 65535 < len) :
    FrameHeader.writeBytes ⟨fin, op, hl, len, Option.some (k1, k2, k3, k4)⟩ =
      [(if fin then 128 else 0) ||| op.as_byte, 128 ||| 127,
       (len >>> 56) % 256, (len >>> 48) % 256, (len >>> 40) % 256, (len >>> 32) % 256,
       (len >>> 24) % 256, (len >>> 16) % 256, (len >>> 8) % 256, len % 256,
       k1, k2, k3, k4] := by
  simp [FrameHeader.writeBytes, hlo]

/-! ## Claim theorems -/

/-- Claim C1. The claim states that the frame-header parser never reads out of
bounds and reports insufficient data on the 2-byte slice 0x81 0x80 whose mask
bit is set. The code contradicts it: on that slice the unguarded slice access
buf[used..used+4] is out of range and the program panics instead of returning
the insufficient-data result. -/
theorem C1_parse_short_masked_header_panics :
    FrameHeader.parse [0x81, 0x80] = ParseResult.panic "range end index out of range" := by
  decide

/-- Claim C2. The claim states that send on a Session whose open flag is false
is refused and writes nothing. The code contradicts it: send_str never checks
the open flag, so on a closed session it still writes the 2-byte header plus
the 1-byte payload to the stream and returns Ok 3; the receive side of the
claim does hold (a closed session receives no message and stays unchanged). -/
theorem C2_send_str_writes_on_closed_session :
    WebSocket.send_str { req := sampleReq, inbuf := [], out := [], openFlag := false } "a"
      = SendResult.ok 3
          { req := sampleReq, inbuf := [], out := [0x81, 0x01, 0x61], openFlag := false }
    ∧ ([0x81, 0x01, 0x61] : List Nat) ≠ []
    ∧ WebSocket.recv { req := sampleReq, inbuf := [], out := [], openFlag := false }
      = RecvResult.ok Option.none
          { req := sampleReq, inbuf := [], out := [], openFlag := false } := by
  refine ⟨by decide, by decide, by decide⟩

/-- Claim C3. The claim states that a final Text frame with an invalid UTF-8
payload makes receive fail with an Input-kind error. The code contradicts it:
the From conversion for FromUtf8Error in err.rs produces the Io kind, so the
0xFF payload below yields an Io error (the two kinds do stay distinguishable,
which is the part of the claim that holds). -/
theorem C3_invalid_utf8_text_yields_io_error :
    WebSocket.recv { req := sampleReq, inbuf := [0x81, 0x01, 0xFF], out := [], openFlag := true }
      = RecvResult.err (fromUtf8Error "invalid utf-8 sequence")
          { req := sampleReq, inbuf := [0x81, 0x01, 0xFF], out := [], openFlag := true }
    ∧ fromUtf8Error "invalid utf-8 sequence" = Error.Io "invalid utf-8 sequence"
    ∧ (∀ m1 m2, Error.Io m1 ≠ Error.Input m2) := by
  refine ⟨by decide, rfl, fun m1 m2 h => by cases h⟩

/-- Claim C4. The claim states that the header_byte_length recorded by the
final_text constructor equals the number of header bytes its serialization
writes, counting 2 fixed bytes. The code contradicts it for every input: the
constructor counts 1 fixed byte (header_fixed at line 378), so the bytes
actually written always exceed the recorded header_len by exactly one, as the
payload-length 0, no-mask instance shows concretely. -/
theorem C4_final_text_header_len_off_by_one :
    (∀ len key, ((FrameHeader.final_text len key).writeBytes).length
      = (FrameHeader.final_text len key).header_len + 1)
    ∧ (FrameHeader.final_text 0 Option.none).header_len = 1
    ∧ ((FrameHeader.final_text 0 Option.none).writeBytes).length = 2 := by
  refine ⟨fun len key => ?_, by decide, by decide⟩
  rcases key with _ | ⟨k1, k2, k3, k4⟩ <;>
    by_cases h1 : len > 65535 <;> by_cases h2 : len > 125 <;>
      simp [FrameHeader.final_text, FrameHeader.writeBytes, h1, h2]

/-- Claim C5. For every fin flag, opcode in the closed set, payload length in
the set 0, 1, 125, 126, 65535, 65536, and optional 4-byte masking key,
serializing a frame header with those values and parsing the produced bytes
recovers the identical fin, opcode, payload_length and masking_key. -/
theorem C5_write_parse_roundtrip (fin : Bool) (op : OpCode) (hl len : Nat)
    (key : Option (Nat × Nat × Nat × Nat))
    (hlen : len = 0 ∨ len = 1 ∨ len = 125 ∨ len = 126 ∨ len = 65535 ∨ len = 65536) :
    parsedFields (FrameHeader.parse (FrameHeader.writeBytes ⟨fin, op, hl, len, key⟩))
      = Option.some (fin, op, len, key) := by
  have hw : FrameHeader.writeBytes ⟨fin, op, hl, len, key⟩
      = FrameHeader.writeBytes ⟨fin, op, 0, len, key⟩ := by
    simp only [FrameHeader.writeBytes]
  rw [hw]
  rcases hlen with rfl | rfl | rfl | rfl | rfl | rfl <;> cases fin <;> cases op <;>
      rcases key with _ | ⟨k1, k2, k3, k4⟩ <;>
    first
      | rfl
      | (rw [writeBytes_mask_small _ _ _ _ k1 k2 k3 k4 (by omega)]
         simp only [OpCode.as_byte]
         norm_num
         rfl)
      | (rw [writeBytes_mask_mid _ _ _ _ k1 k2 k3 k4 (by omega) (by omega)]
         simp only [OpCode.as_byte]
         norm_num
         rfl)
      | (rw [writeBytes_mask_large _ _ _ _ k1 k2 k3 k4 (by omega)]
         simp only [OpCode.as_byte]
         norm_num
         rfl)

/-- Witness for claim C5 at a concrete input: fin set, Text opcode, payload
length 126, masking key 1 2 3 4. -/
theorem C5_write_parse_roundtrip_witness :
    parsedFields (FrameHeader.parse
        (FrameHeader.writeBytes ⟨true, OpCode.Text, 0, 126, Option.some (1, 2, 3, 4)⟩))
      = Option.some (true, OpCode.Text, 126, Option.some (1, 2, 3, 4)) :=
  C5_write_parse_roundtrip true OpCode.Text 0 126 (Option.some (1, 2, 3, 4)) (by decide)

/-- Claim C6. The claim states that a complete buffered Ping frame on an open
session triggers an automatic Pong reply with the same payload and is not
surfaced, and that a Pong frame is consumed and discarded. The code
contradicts it: both the Ping and the Pong arms of recv are todo macros, so
receiving either frame aborts the program instead of replying or discarding. -/
theorem C6_ping_frame_panics_no_pong :
    WebSocket.recv { req := sampleReq, inbuf := [0x89, 0x00], out := [], openFlag := true }
      = RecvResult.panic "not yet implemented: send pong"
    ∧ WebSocket.recv { req := sampleReq, inbuf := [0x8A, 0x00], out := [], openFlag := true }
      = RecvResult.panic "not yet implemented: nothing?" := by
  refine ⟨by decide, by decide⟩

/-- Claim C7. The claim states that an unrecognized opcode nibble is a hard
parse failure distinguishable from insufficient data and that recv treats it
as a fatal error. The code contradicts it: parse returns the same None for the
unknown-opcode slice 0x83 0x00 as for the 1-byte insufficient slice 0x81, and
recv on an open session with that buffer returns Ok None with the session
unchanged (still open, nothing consumed) instead of failing. -/
theorem C7_unknown_opcode_silent_no_message :
    FrameHeader.parse [0x83, 0x00] = ParseResult.none
    ∧ FrameHeader.parse [0x81] = ParseResult.none
    ∧ WebSocket.recv { req := sampleReq, inbuf := [0x83, 0x00], out := [], openFlag := true }
      = RecvResult.ok Option.none
          { req := sampleReq, inbuf := [0x83, 0x00], out := [], openFlag := true } := by
  refine ⟨by decide, by decide, by decide⟩

/-- Counterexample to claim C8 as stated. The claim asserts that the first
occurrence of a duplicated header name wins; parsing a request that carries
the header A twice, with values 1 then 2, stores the value 2 of the second
occurrence, not the value 1 the claim requires. -/
theorem C8_first_occurrence_wins_counterexample :
    (Req.parse ["GET / HTTP/1.1", "A: 1", "A: 2", ""]).toOption.map
        (fun r => hmGet r.headers "A") = Option.some (Option.some "2")
    ∧ Option.some (Option.some "2") ≠ (Option.some (Option.some "1") : Option (Option String)) := by
  refine ⟨by decide, by decide⟩

/-- Claim C8, amended. For a request containing two header lines with the same
header name, the map associates that name with the value from the last
occurrence (the HashMap insert of the source overwrites earlier bindings), and
header-name matching is case-sensitive. -/
theorem C8_last_occurrence_wins :
    (∀ m k v1 v2, hmGet (hmInsert (hmInsert m k v1) k v2) k = Option.some v2)
    ∧ (Req.parse ["GET / HTTP/1.1", "Host: x", "Host: y", ""]).toOption.map
        (fun r => hmGet r.headers "Host") = Option.some (Option.some "y")
    ∧ (Req.parse ["GET / HTTP/1.1", "Host: x", ""]).toOption.map
        (fun r => hmGet r.headers "host") = Option.some Option.none := by
  refine ⟨fun m k v1 v2 => hmGet_hmInsert_self (hmInsert m k v1) k v2, by decide, by decide⟩

/-- Claim C9. A handshake on a request carrying Connection Upgrade, Upgrade
websocket and the RFC 6455 sample key computes the canonical accept token (the
base64 SHA-1 of the key concatenated with the magic string) and writes it in
the Sec-WebSocket-Accept response header. -/
theorem C9_handshake_rfc6455_example :
    ws_upgrade { version := "HTTP/1.1", verb := Verb.Get, path := "/chat",
                 headers := [("Connection", "Upgrade"), ("Upgrade", "websocket"),
                             ("Sec-WebSocket-Key", "dGhlIHNhbXBsZSBub25jZQ==")] }
      = WsUpgrade.Success
          { req := { version := "HTTP/1.1", verb := Verb.Get, path := "/chat",
                     headers := [("Connection", "Upgrade"), ("Upgrade", "websocket"),
                                 ("Sec-WebSocket-Key", "dGhlIHNhbXBsZSBub25jZQ==")] },
            inbuf := [], out := [], openFlag := true }
          "s3pPLMBiTxaQ9kYGzzhZRbK+xOo="
          ["HTTP/1.0 101 Switching Protocols\n", "Server: webd 0.1\n", "Connection: upgrade\n",
           "Upgrade: websocket\n", "Sec-WebSocket-Accept: s3pPLMBiTxaQ9kYGzzhZRbK+xOo=\n",
           "\n"] := by
  decide

/-- Claim C10. Applying the unmask transform twice with the same key returns
the original byte sequence for every header and every buffer, and a header
with no masking key returns the payload unchanged. -/
theorem C10_unmask_involution (h : FrameHeader) (buf : List Nat) :
    h.unmask (h.unmask buf) = buf
    ∧ (h.masking_key = Option.none → h.unmask buf = buf) := by
  constructor
  · rcases hk : h.masking_key with _ | key <;>
      simp [FrameHeader.unmask, hk, unmaskGo_unmaskGo]
  · intro hnone
    simp [FrameHeader.unmask, hnone]

/-- Witness for claim C10 at a concrete input: the keyless header leaves the
buffer 5 6 unchanged, by the second conjunct of the claim theorem. -/
theorem C10_unmask_involution_witness :
    FrameHeader.unmask ⟨true, OpCode.Text, 2, 2, Option.none⟩ [5, 6] = [5, 6] :=
  (C10_unmask_involution ⟨true, OpCode.Text, 2, 2, Option.none⟩ [5, 6]).2 rfl
